import Mathlib

/-!
Shallow embedding of `src/Plugin/core.py` (Flow.Launcher.Plugin.FirefoxKeywordBookmarks),
the `FirefoxKeywordBookmarks` plugin class: its bookmark cache (`self.cache`),
the store reader (`get_bookmarks`), the query handler (`__call__`, here `call`)
and the explicit reload (`reload_cache`).

Modelling conventions:
- A row of `moz_keywords` is `KeywordRow` (columns: id, keyword, place_id);
  a row of `moz_places` is `PlaceRow` (columns: id, url; further columns are unused).
- Opening `places.sqlite` under a profile path and querying it is modelled as an
  environment `stores : String → Except SqErr ProfileStore`: either the rows of the
  two tables, or a sqlite3 exception. `SqErr.operational` is `sqlite3.OperationalError`
  (missing file/directory, locked file, missing table); `SqErr.database` is any other
  `sqlite3.DatabaseError` (e.g. "file is not a database" for a malformed file), which
  is NOT a subclass match for `except sqlite3.OperationalError`.
- A Python `dict[str, Option]` is modelled by its binding history, a
  `List (String × FlowOption)`; `dictGet` returns the most recent binding for a key,
  which agrees extensionally with Python `dict.get` (later assignment overwrites).
  `d1 ++ d2` models `d1.update(d2)` at the level of `dictGet`.
- Python exceptions escaping a function are the `Except.error` branch (`PyError`);
  `PyError.indexError` is the `IndexError` of `profile_path[1]` on a short string.
- The flowpy `Option` result record is `FlowOption`; its `action` callback and icon
  are opaque to the host, so the embedding keeps the data they close over
  (`url`, `profile_path`) and drops the callable itself.
-/

/-- A row of the `moz_keywords` table: `keyword_data[0] = id`,
`keyword_data[1] = keyword`, `keyword_data[2] = place_id`. -/
structure KeywordRow where
  kid : Nat
  keyword : String
  place_id : Nat
deriving DecidableEq, Repr

/-- A row of the `moz_places` table: `place[0] = id`, `place[1] = url`. -/
structure PlaceRow where
  pid : Nat
  url : String
deriving DecidableEq, Repr

/-- The readable contents of one profile's `places.sqlite`:
`keywords` in `SELECT * FROM moz_keywords` enumeration order, and `places`
such that `SELECT * FROM moz_places WHERE id = ?` + `fetchone` is the first
row of `places` with the matching id. -/
structure ProfileStore where
  keywords : List KeywordRow
  places : List PlaceRow
deriving DecidableEq, Repr

/-- sqlite3 exception classes distinguished by the code: `operational` is
`sqlite3.OperationalError`; `database` is any other `sqlite3.DatabaseError`
(not caught by `except sqlite3.OperationalError`). -/
inductive SqErr where
  | operational
  | database
deriving DecidableEq, Repr

/-- A Python exception escaping a call in the embedded fragment. -/
inductive PyError where
  | indexError
  | sqlite (e : SqErr)
deriving DecidableEq, Repr

/-- The flowpy `Option` result record, restricted to the data the plugin puts in it:
`title`, `sub`, and the `url`/`profile_path` closed over by its action and
context data (absent on the two error options). -/
structure FlowOption where
  title : String
  sub : String
  url : Option String
  profile_path : Option String
deriving DecidableEq, Repr

/-- A Python `dict[str, Option]` as its binding history (write order). -/
abbrev Dict := List (String × FlowOption)

/-- `d.get(k)`: the most recent binding of `k` in the history `d`. -/
def dictGet : Dict → String → Option FlowOption
  | [], _ => none
  | (k', v) :: rest, k =>
    match dictGet rest k with
    | some v' => some v'
    | none => if k' = k then some v else none

/-- The bookmark `Option` built in `get_bookmarks`:
`Option(title=keyword, sub=url, action=Action(open_url, firefox_fp, profile_path, url), ...)`. -/
def mkBookmarkOpt (keyword url path : String) : FlowOption :=
  { title := keyword, sub := url, url := some url, profile_path := some path }

/-- The error `Option` returned when `profile_path_data` is falsy:
`Option(title="Error: No profile data path given", ...)`. -/
def noProfileOpt : FlowOption :=
  { title := "Error: No profile data path given"
    sub := "Open context menu for more options"
    url := none, profile_path := none }

/-- The error `Option` returned when `get_bookmarks` raises `sqlite3.OperationalError`
during the lazy load; its title carries the failing profile path. -/
def dbErrOpt (path : String) : FlowOption :=
  { title := "Error: Unable to open profile database file. Profile: " ++ path
    sub := "Are you sure the profile exists and is correct? Click this to open settings menu."
    url := none, profile_path := none }

/-- The prefix-stripping prelude of `get_bookmarks`:
`if profile_path[1] == "|": prefix = profile_path[0]; profile_path = profile_path[2:]`.
Python indexes by character, so a string of fewer than two characters raises
`IndexError`, modelled as `none`. -/
def profilePrefixPath (profile_path : String) : Option (String × String) :=
  match profile_path.data with
  | c0 :: c1 :: rest =>
    if c1 = '|' then some (String.mk [c0], String.mk rest)
    else some ("", profile_path)
  | _ => none

/-- Modelled from the spec (C5), for comparison with `profilePrefixPath`: "if the
second character of the raw configured string is a fixed separator character, the
first character is the prefix ... otherwise there is no prefix". -/
def claimPfx (p : String) : String :=
  if p.data[1]? = some '|' then String.mk (p.data.take 1) else ""

/-- Modelled from the spec (C5), for comparison with `profilePrefixPath`: "... and
the remainder (after the separator) is the real path; otherwise ... the string is
used as the path". -/
def claimPath (p : String) : String :=
  if p.data[1]? = some '|' then String.mk (p.data.drop 2) else p

/-- The row loop of `get_bookmarks` over an opened store: for each keyword row
(`if keyword_data:` is always true on a fetched row, a non-empty tuple), resolve
the place by id with `fetchone`; if a place is found, bind
`final[prefix + keyword] = Option(...)`; otherwise the row is skipped. -/
def bookmarksOf (store : ProfileStore) (pfx : String) (path : String) : Dict :=
  store.keywords.foldl
    (fun final kd =>
      let keyword := pfx ++ kd.keyword
      match store.places.find? (fun pl => pl.pid == kd.place_id) with
      | some place => final ++ [(keyword, mkBookmarkOpt keyword place.url path)]
      | none => final)
    []

/-- `FirefoxKeywordBookmarks.get_bookmarks(profile_path, firefox_fp)`: strip the
optional one-character prefix, open and query the profile store, and build the
keyword dict. `firefox_fp` only feeds the action callback and carries no data the
embedding tracks. -/
def get_bookmarks (stores : String → Except SqErr ProfileStore) (profile_path : String) :
    Except PyError Dict :=
  match profilePrefixPath profile_path with
  | none => .error .indexError
  | some (pfx, path) =>
    match stores path with
    | .error e => .error (.sqlite e)
    | .ok store => .ok (bookmarksOf store pfx path)

/-- Python `profile_path_data.split("\r\n")` on the character list (left-to-right,
non-overlapping occurrences of the two-character separator). -/
def splitCRLF : List Char → List String
  | '\r' :: '\n' :: rest => "" :: splitCRLF rest
  | c :: rest =>
    match splitCRLF rest with
    | s :: ss => String.mk (c :: s.data) :: ss
    | [] => [String.mk [c]]
  | [] => [""]

/-- Python `s.split("\r\n")`. -/
def pySplitCRLF (s : String) : List String := splitCRLF s.data

instance {ε α : Type} [DecidableEq ε] [DecidableEq α] : DecidableEq (Except ε α) := fun x y =>
  match x, y with
  | .error a, .error b =>
    if h : a = b then .isTrue (by rw [h]) else .isFalse (fun hc => by cases hc; exact h rfl)
  | .error _, .ok _ => .isFalse (fun hc => by cases hc)
  | .ok _, .error _ => .isFalse (fun hc => by cases hc)
  | .ok a, .ok b =>
    if h : a = b then .isTrue (by rw [h]) else .isFalse (fun hc => by cases hc; exact h rfl)

/-- Outcome of the lazy-load `for` loop in `__call__`. -/
inductive LoopResult where
  | success (d : Dict)
  | caught (path : String)
  | crash (e : PyError) (sofar : Dict)
deriving DecidableEq, Repr

/-- The lazy-load loop of `__call__`:
`for path in profile_path_data.split("\r\n"): try: self.cache.update(get_bookmarks(path, ...))
except sqlite3.OperationalError: ...`. Only `OperationalError` is caught (`caught`,
with the failing path); any other exception escapes (`crash`) with the cache left
at the partial merge `sofar` accumulated so far. -/
def loadLoop (stores : String → Except SqErr ProfileStore) : List String → Dict → LoopResult
  | [], acc => .success acc
  | p :: rest, acc =>
    match get_bookmarks stores p with
    | .ok d => loadLoop stores rest (acc ++ d)
    | .error (.sqlite .operational) => .caught p
    | .error e => .crash e acc

/-- The two settings `__call__` reads; `none` models `SettingNotFound`. -/
structure Settings where
  profile_path_data : Option String
  firefox_fp : Option String

/-- `self.cache.get(query)` turned into the handler's result list:
`[opt]` if present, `[]` otherwise. -/
def lookupResponse (cache : Dict) (query : String) : List FlowOption :=
  match dictGet cache query with
  | some o => [o]
  | none => []

/-- What one `__call__` leaves behind: the returned result list (or an uncaught
exception), the new `self.cache` (`none` = Python `None`, the unloaded state), and
how many times the body entered the `self.cache is None` load branch. -/
structure CallOutcome where
  response : Except PyError (List FlowOption)
  cache' : Option Dict
  loadAttempts : Nat
deriving DecidableEq, Repr

/-- `FirefoxKeywordBookmarks.__call__(data, settings)` on query text `query` with
current cache `cache`:
1. a falsy `profile_path_data` (absent or empty) returns the single error option;
2. if `self.cache is None`, run the lazy-load loop (setting `self.cache = {}` first,
   so a crash leaves the partial merge behind; a caught `OperationalError` sets
   `self.cache = None` and returns the single db-error option);
3. answer the lookup from the cache. -/
def call (stores : String → Except SqErr ProfileStore) (cache : Option Dict)
    (settings : Settings) (query : String) : CallOutcome :=
  match settings.profile_path_data with
  | none => ⟨.ok [noProfileOpt], cache, 0⟩
  | some ppd =>
    if ppd = "" then ⟨.ok [noProfileOpt], cache, 0⟩
    else
      match cache with
      | some m => ⟨.ok (lookupResponse m query), some m, 0⟩
      | none =>
        match loadLoop stores (pySplitCRLF ppd) [] with
        | .success d => ⟨.ok (lookupResponse d query), some d, 1⟩
        | .caught p => ⟨.ok [dbErrOpt p], none, 1⟩
        | .crash e sofar => ⟨.error e, some sofar, 1⟩

/-- What `reload_cache` leaves behind: its outcome (an escaping exception, or
normal return) and the new `self.cache`. -/
structure ReloadResult where
  outcome : Except PyError Unit
  cache' : Option Dict
deriving DecidableEq, Repr

/-- `FirefoxKeywordBookmarks.reload_cache(path, firefox_fp)`:
`self.cache = self.get_bookmarks(path, firefox_fp)`. The assignment happens only
if `get_bookmarks` returns; an exception escapes first and leaves `self.cache`
unchanged. A single path is rebuilt: the one bound into the context-menu action. -/
def reload_cache (stores : String → Except SqErr ProfileStore) (cache : Option Dict)
    (path : String) : ReloadResult :=
  match get_bookmarks stores path with
  | .ok d => ⟨.ok (), some d⟩
  | .error e => ⟨.error e, cache⟩

/-! ### Concrete fixtures used by witnesses and counterexamples -/

/-- A store whose only keyword row is `aa ↦ place 5 (http://1)`. -/
def storeW1 : ProfileStore := ⟨[⟨1, "aa", 5⟩], [⟨5, "http://1"⟩]⟩

/-- A store whose only keyword row is `bb ↦ place 7 (http://2)`. -/
def storeW2 : ProfileStore := ⟨[⟨1, "bb", 7⟩], [⟨7, "http://2"⟩]⟩

/-- A store with one keyword row whose keyword value is the empty string,
referencing an existing place. -/
def storeE : ProfileStore := ⟨[⟨1, "", 5⟩], [⟨5, "http://u"⟩]⟩

/-- A concrete store environment: profiles `p1`, `p2`, `pe` open fine; profile
`pd` fails with a `sqlite3.DatabaseError` that is not an `OperationalError`;
every other path fails with `sqlite3.OperationalError`. -/
def storesW : String → Except SqErr ProfileStore := fun p =>
  if p = "p1" then .ok storeW1
  else if p = "p2" then .ok storeW2
  else if p = "pe" then .ok storeE
  else if p = "pd" then .error .database
  else .error .operational

/-- A store environment whose store at path `a` opens fine (everything else fails),
to show that `get_bookmarks "a"` fails before ever reaching the store. -/
def storesA : String → Except SqErr ProfileStore := fun p =>
  if p = "a" then .ok storeW1 else .error .operational

/-- The dict read from profile `p1`. -/
def dW1 : Dict := bookmarksOf storeW1 "" "p1"

/-- The dict read from profile `p2`. -/
def dW2 : Dict := bookmarksOf storeW2 "" "p2"

/-! ### Derived notions used by the theorems -/

/-- Read every profile of the list in order; `some ds` when all succeed
(one dict per profile, in order), `none` when any read raises. -/
def readAll (stores : String → Except SqErr ProfileStore) : List String → Option (List Dict)
  | [] => some []
  | p :: rest =>
    match get_bookmarks stores p with
    | .ok d => (readAll stores rest).map (d :: ·)
    | .error _ => none

/-- Last-profile-wins selection over a list of per-profile dicts:
the entry for `k` from the last dict that has one. -/
def lastWins : List Dict → String → Option FlowOption
  | [], _ => none
  | d :: rest, k =>
    match lastWins rest k with
    | some v => some v
    | none => dictGet d k

/-- The contribution of one `moz_keywords` row to the dict: `none` when its place
reference resolves to no row, otherwise the binding the row loop makes for it. -/
def keywordEntry (places : List PlaceRow) (pfx path : String) (kd : KeywordRow) :
    Option (String × FlowOption) :=
  (places.find? (fun pl => pl.pid == kd.place_id)).map
    (fun pl => (pfx ++ kd.keyword, mkBookmarkOpt (pfx ++ kd.keyword) pl.url path))

/-- The invariant of every dict the plugin ever stores in `self.cache`: each entry
is titled by its own lookup key and its action opens exactly the URL shown in the
subtitle. -/
def goodDict (D : Dict) : Prop :=
  ∀ k o, dictGet D k = some o → o.title = k ∧ o.url = some o.sub

/-! ### Helper lemmas -/

theorem dictGet_cons_some {rest : Dict} {k : String} {v : FlowOption}
    (h : dictGet rest k = some v) (k' : String) (x : FlowOption) :
    dictGet ((k', x) :: rest) k = some v := by
  simp [dictGet, h]

theorem dictGet_cons_none {rest : Dict} {k : String}
    (h : dictGet rest k = none) (k' : String) (x : FlowOption) :
    dictGet ((k', x) :: rest) k = if k' = k then some x else none := by
  simp only [dictGet, h]

theorem dictGet_append (d1 d2 : Dict) (k : String) :
    dictGet (d1 ++ d2) k =
      match dictGet d2 k with
      | some v => some v
      | none => dictGet d1 k := by
  induction d1 with
  | nil => cases h : dictGet d2 k <;> simp [dictGet, h]
  | cons kv rest ih =>
    obtain ⟨k', v⟩ := kv
    show (match dictGet (rest ++ d2) k with
      | some v' => some v'
      | none => if k' = k then some v else none) = _
    rw [ih]
    cases h2 : dictGet d2 k <;> rfl

theorem lastWins_cons_some {rest : List Dict} {k : String} {v : FlowOption}
    (h : lastWins rest k = some v) (d : Dict) :
    lastWins (d :: rest) k = some v := by
  simp [lastWins, h]

theorem lastWins_cons_none {rest : List Dict} {k : String}
    (h : lastWins rest k = none) (d : Dict) :
    lastWins (d :: rest) k = dictGet d k := by
  simp only [lastWins, h]

theorem dictGet_flatten (ds : List Dict) (k : String) :
    dictGet ds.flatten k = lastWins ds k := by
  induction ds with
  | nil => rfl
  | cons d rest ih =>
    show dictGet (d ++ rest.flatten) k = _
    rw [dictGet_append, ih]
    rfl

theorem lastWins_eq_none (ds : List Dict) (k : String) :
    lastWins ds k = none ↔ ∀ d ∈ ds, dictGet d k = none := by
  induction ds with
  | nil => simp [lastWins]
  | cons d rest ih =>
    cases h : lastWins rest k with
    | some v =>
      rw [lastWins_cons_some h]
      constructor
      · intro h0
        exact Option.noConfusion h0
      · intro hall
        have h0 : lastWins rest k = none :=
          ih.2 (fun d' hd' => hall d' (List.mem_cons_of_mem _ hd'))
        rw [h] at h0
        exact Option.noConfusion h0
    | none =>
      rw [lastWins_cons_none h]
      constructor
      · intro hd d' hd'
        rcases List.mem_cons.1 hd' with rfl | hd'
        · exact hd
        · exact (ih.1 h) d' hd'
      · intro hall
        exact hall d (List.mem_cons_self _ _)

theorem lastWins_isSome (ds : List Dict) (k : String) :
    (lastWins ds k).isSome ↔ ∃ d ∈ ds, (dictGet d k).isSome := by
  induction ds with
  | nil => simp [lastWins]
  | cons d rest ih =>
    cases h : lastWins rest k with
    | some v =>
      rw [lastWins_cons_some h]
      constructor
      · intro _
        obtain ⟨d', hd', hs⟩ := ih.1 (by rw [h]; rfl)
        exact ⟨d', List.mem_cons_of_mem _ hd', hs⟩
      · intro _
        rfl
    | none =>
      rw [lastWins_cons_none h]
      constructor
      · intro hs
        exact ⟨d, List.mem_cons_self _ _, hs⟩
      · rintro ⟨d', hd', hs⟩
        rcases List.mem_cons.1 hd' with rfl | hd'
        · exact hs
        · have h2 := ih.2 ⟨d', hd', hs⟩
          rw [h] at h2
          exact absurd h2 (by simp)

theorem lastWins_append (a b : List Dict) (k : String) :
    lastWins (a ++ b) k =
      match lastWins b k with
      | some v => some v
      | none => lastWins a k := by
  induction a with
  | nil => cases h : lastWins b k <;> simp [lastWins, h]
  | cons d rest ih =>
    show (match lastWins (rest ++ b) k with
      | some v => some v
      | none => dictGet d k) = _
    rw [ih]
    cases hb : lastWins b k <;> rfl

theorem lastWins_last (ds1 : List Dict) (d : Dict) (ds2 : List Dict) (k : String)
    (h1 : (dictGet d k).isSome) (h2 : ∀ d' ∈ ds2, dictGet d' k = none) :
    lastWins (ds1 ++ d :: ds2) k = dictGet d k := by
  rw [lastWins_append]
  have hrest : lastWins ds2 k = none := (lastWins_eq_none ds2 k).2 h2
  rw [lastWins_cons_none hrest]
  obtain ⟨v, hv⟩ := Option.isSome_iff_exists.1 h1
  rw [hv]

theorem bookmarksOf_eq_filterMap (store : ProfileStore) (pfx path : String) :
    bookmarksOf store pfx path =
      store.keywords.filterMap (keywordEntry store.places pfx path) := by
  have aux : ∀ (l : List KeywordRow) (acc : Dict),
      l.foldl
        (fun final kd =>
          let keyword := pfx ++ kd.keyword
          match store.places.find? (fun pl => pl.pid == kd.place_id) with
          | some place => final ++ [(keyword, mkBookmarkOpt keyword place.url path)]
          | none => final)
        acc = acc ++ l.filterMap (keywordEntry store.places pfx path) := by
    intro l
    induction l with
    | nil => simp
    | cons kd rest ih =>
      intro acc
      simp only [List.foldl_cons, List.filterMap_cons]
      cases h : store.places.find? (fun pl => pl.pid == kd.place_id) with
      | none => simp [keywordEntry, h, ih]
      | some pl => simp [keywordEntry, h, ih, List.append_assoc]
  simpa using aux store.keywords []

theorem dictGet_mem {D : Dict} {k : String} {o : FlowOption} (h : dictGet D k = some o) :
    (k, o) ∈ D := by
  induction D with
  | nil => exact Option.noConfusion h
  | cons kv rest ih =>
    obtain ⟨k', v⟩ := kv
    cases hr : dictGet rest k with
    | some o' =>
      rw [dictGet_cons_some hr] at h
      cases h
      exact List.mem_cons_of_mem _ (ih hr)
    | none =>
      rw [dictGet_cons_none hr] at h
      by_cases hk : k' = k
      · rw [if_pos hk] at h
        cases h
        cases hk
        exact List.mem_cons_self _ _
      · rw [if_neg hk] at h
        exact Option.noConfusion h

theorem goodDict_of_mem {D : Dict}
    (h : ∀ kv ∈ D, kv.2.title = kv.1 ∧ kv.2.url = some kv.2.sub) : goodDict D := by
  intro k o hget
  exact h (k, o) (dictGet_mem hget)

theorem goodDict_bookmarksOf (store : ProfileStore) (pfx path : String) :
    goodDict (bookmarksOf store pfx path) := by
  apply goodDict_of_mem
  intro kv hkv
  rw [bookmarksOf_eq_filterMap] at hkv
  obtain ⟨kd, _, hf⟩ := List.mem_filterMap.1 hkv
  simp only [keywordEntry, Option.map_eq_some'] at hf
  obtain ⟨pl, _, rfl⟩ := hf
  exact ⟨rfl, rfl⟩

theorem goodDict_nil : goodDict [] := by
  intro k o h
  exact Option.noConfusion h

theorem goodDict_append {d1 d2 : Dict} (h1 : goodDict d1) (h2 : goodDict d2) :
    goodDict (d1 ++ d2) := by
  intro k o hget
  rw [dictGet_append] at hget
  cases hd2 : dictGet d2 k with
  | some v =>
    rw [hd2] at hget
    cases hget
    exact h2 k o hd2
  | none =>
    rw [hd2] at hget
    exact h1 k o hget

theorem get_bookmarks_ok {stores : String → Except SqErr ProfileStore} {p : String} {d : Dict}
    (h : get_bookmarks stores p = .ok d) :
    ∃ pfx path store, profilePrefixPath p = some (pfx, path) ∧ stores path = .ok store ∧
      d = bookmarksOf store pfx path := by
  cases hp : profilePrefixPath p with
  | none =>
    simp only [get_bookmarks, hp] at h
    exact Except.noConfusion h
  | some pr =>
    obtain ⟨pfx, path⟩ := pr
    cases hs : stores path with
    | error e =>
      simp only [get_bookmarks, hp, hs] at h
      exact Except.noConfusion h
    | ok store =>
      simp only [get_bookmarks, hp, hs] at h
      injection h with h
      exact ⟨pfx, path, store, rfl, hs, h.symm⟩

theorem loadLoop_of_readAll {stores : String → Except SqErr ProfileStore} :
    ∀ {ps : List String} {ds : List Dict} (acc : Dict),
      readAll stores ps = some ds → loadLoop stores ps acc = .success (acc ++ ds.flatten) := by
  intro ps
  induction ps with
  | nil =>
    intro ds acc h
    simp only [readAll, Option.some_inj] at h
    cases h
    simp [loadLoop]
  | cons p rest ih =>
    intro ds acc h
    cases hg : get_bookmarks stores p with
    | error e =>
      simp only [readAll, hg] at h
      exact Option.noConfusion h
    | ok d =>
      cases hr : readAll stores rest with
      | none =>
        simp only [readAll, hg, hr, Option.map_none'] at h
        exact Option.noConfusion h
      | some ds' =>
        simp only [readAll, hg, hr, Option.map_some', Option.some_inj] at h
        cases h
        simp only [loadLoop, hg]
        rw [ih (acc ++ d) hr]
        simp [List.append_assoc]

theorem readAll_length {stores : String → Except SqErr ProfileStore} :
    ∀ {ps : List String} {ds : List Dict}, readAll stores ps = some ds →
      ds.length = ps.length := by
  intro ps
  induction ps with
  | nil =>
    intro ds h
    simp only [readAll, Option.some_inj] at h
    cases h
    rfl
  | cons p rest ih =>
    intro ds h
    cases hg : get_bookmarks stores p with
    | error e =>
      simp only [readAll, hg] at h
      exact Option.noConfusion h
    | ok d =>
      cases hr : readAll stores rest with
      | none =>
        simp only [readAll, hg, hr, Option.map_none'] at h
        exact Option.noConfusion h
      | some ds' =>
        simp only [readAll, hg, hr, Option.map_some', Option.some_inj] at h
        cases h
        simp [ih hr]

theorem readAll_mem {stores : String → Except SqErr ProfileStore} :
    ∀ {ps : List String} {ds : List Dict}, readAll stores ps = some ds →
      ∀ d ∈ ds, ∃ p ∈ ps, get_bookmarks stores p = .ok d := by
  intro ps
  induction ps with
  | nil =>
    intro ds h
    simp only [readAll, Option.some_inj] at h
    cases h
    intro d hd
    exact absurd hd (List.not_mem_nil d)
  | cons p rest ih =>
    intro ds h
    cases hg : get_bookmarks stores p with
    | error e =>
      simp only [readAll, hg] at h
      exact Option.noConfusion h
    | ok d0 =>
      cases hr : readAll stores rest with
      | none =>
        simp only [readAll, hg, hr, Option.map_none'] at h
        exact Option.noConfusion h
      | some ds' =>
        simp only [readAll, hg, hr, Option.map_some', Option.some_inj] at h
        cases h
        intro d hd
        rcases List.mem_cons.1 hd with rfl | hd
        · exact ⟨p, List.mem_cons_self _ _, hg⟩
        · obtain ⟨p', hp', hgp⟩ := ih hr d hd
          exact ⟨p', List.mem_cons_of_mem _ hp', hgp⟩

theorem loadLoop_good {stores : String → Except SqErr ProfileStore} :
    ∀ (ps : List String) (acc : Dict), goodDict acc →
      (∀ d, loadLoop stores ps acc = .success d → goodDict d) ∧
      (∀ e sofar, loadLoop stores ps acc = .crash e sofar → goodDict sofar) := by
  intro ps
  induction ps with
  | nil =>
    intro acc hacc
    constructor
    · intro d h
      simp only [loadLoop, LoopResult.success.injEq] at h
      cases h
      exact hacc
    · intro e sofar h
      simp only [loadLoop] at h
      exact LoopResult.noConfusion h
  | cons p rest ih =>
    intro acc hacc
    cases hg : get_bookmarks stores p with
    | ok d0 =>
      obtain ⟨pfx, path, store, _, _, rfl⟩ := get_bookmarks_ok hg
      have hacc' : goodDict (acc ++ bookmarksOf store pfx path) :=
        goodDict_append hacc (goodDict_bookmarksOf store pfx path)
      constructor
      · intro d h
        simp only [loadLoop, hg] at h
        exact (ih _ hacc').1 d h
      · intro e sofar h
        simp only [loadLoop, hg] at h
        exact (ih _ hacc').2 e sofar h
    | error e0 =>
      constructor
      · intro d h
        rcases e0 with _ | e1
        · simp only [loadLoop, hg] at h
          exact LoopResult.noConfusion h
        · rcases e1 with _ | _ <;> simp only [loadLoop, hg] at h
          · exact LoopResult.noConfusion h
          · exact LoopResult.noConfusion h
      · intro e sofar h
        rcases e0 with _ | e1
        · simp only [loadLoop, hg, LoopResult.crash.injEq] at h
          cases h.2
          exact hacc
        · rcases e1 with _ | _
          · simp only [loadLoop, hg] at h
            exact LoopResult.noConfusion h
          · simp only [loadLoop, hg, LoopResult.crash.injEq] at h
            cases h.2
            exact hacc

theorem mem_key_dictGet_isSome {D : Dict} {k : String} {o : FlowOption}
    (h : (k, o) ∈ D) : (dictGet D k).isSome := by
  induction D with
  | nil => cases h
  | cons kv rest ih =>
    obtain ⟨k', v⟩ := kv
    cases hr : dictGet rest k with
    | some w =>
      rw [dictGet_cons_some hr]
      rfl
    | none =>
      rw [dictGet_cons_none hr]
      rcases List.mem_cons.1 h with heq | hmem
      · injection heq with h1 h2
        subst h1
        simp
      · have hs := ih hmem
        rw [hr] at hs
        exact absurd hs (by simp)

theorem dictGet_isSome_iff_mem_key {D : Dict} {k : String} :
    (dictGet D k).isSome ↔ ∃ o, (k, o) ∈ D := by
  constructor
  · intro h
    obtain ⟨o, ho⟩ := Option.isSome_iff_exists.1 h
    exact ⟨o, dictGet_mem ho⟩
  · rintro ⟨o, ho⟩
    exact mem_key_dictGet_isSome ho

theorem dictGet_bookmarksOf_isSome (store : ProfileStore) (pfx path k : String) :
    (dictGet (bookmarksOf store pfx path) k).isSome ↔
      ∃ kd ∈ store.keywords, pfx ++ kd.keyword = k ∧
        (store.places.find? (fun pl => pl.pid == kd.place_id)).isSome := by
  rw [bookmarksOf_eq_filterMap, dictGet_isSome_iff_mem_key]
  constructor
  · rintro ⟨o, ho⟩
    obtain ⟨kd, hkd, hf⟩ := List.mem_filterMap.1 ho
    simp only [keywordEntry, Option.map_eq_some'] at hf
    obtain ⟨pl, hpl, heq⟩ := hf
    injection heq with h1 h2
    exact ⟨kd, hkd, h1, by rw [hpl]; rfl⟩
  · rintro ⟨kd, hkd, hkey, hfind⟩
    obtain ⟨pl, hpl⟩ := Option.isSome_iff_exists.1 hfind
    refine ⟨mkBookmarkOpt k pl.url path, List.mem_filterMap.2 ⟨kd, hkd, ?_⟩⟩
    simp [keywordEntry, hpl, hkey]

theorem call_none_ppd (stores : String → Except SqErr ProfileStore) (cache : Option Dict)
    (ff : Option String) (q : String) :
    call stores cache ⟨none, ff⟩ q = ⟨.ok [noProfileOpt], cache, 0⟩ := rfl

theorem call_empty_ppd (stores : String → Except SqErr ProfileStore) (cache : Option Dict)
    (ff : Option String) (q : String) :
    call stores cache ⟨some "", ff⟩ q = ⟨.ok [noProfileOpt], cache, 0⟩ := by
  simp [call]

theorem call_loaded (stores : String → Except SqErr ProfileStore) (m : Dict)
    (ppd : String) (ff : Option String) (q : String) (h : ppd ≠ "") :
    call stores (some m) ⟨some ppd, ff⟩ q = ⟨.ok (lookupResponse m q), some m, 0⟩ := by
  simp [call, h]

theorem call_lazy (stores : String → Except SqErr ProfileStore)
    (ppd : String) (ff : Option String) (q : String) (h : ppd ≠ "") :
    call stores none ⟨some ppd, ff⟩ q =
      match loadLoop stores (pySplitCRLF ppd) [] with
      | .success d => ⟨.ok (lookupResponse d q), some d, 1⟩
      | .caught p => ⟨.ok [dbErrOpt p], none, 1⟩
      | .crash e sofar => ⟨.error e, some sofar, 1⟩ := by
  simp [call, h]


/-! ### Claim theorems -/

/-- C1 counterexample: a failing load attempt after which the cache is NOT unloaded.
The explicit reload operation is invoked on a profile whose store read fails with
`sqlite3.OperationalError`; the exception escapes before the assignment to
`self.cache`, so afterwards the cache is still the previously loaded map (its old
entry for `aa` is observable), not the unloaded state the claim requires. -/
theorem c1_counterexample :
    (reload_cache storesW (some dW1) "qq").outcome = .error (.sqlite .operational) ∧
    (reload_cache storesW (some dW1) "qq").cache' = some dW1 ∧
    some dW1 ≠ (none : Option Dict) ∧
    dictGet dW1 "aa" = some (mkBookmarkOpt "aa" "http://1" "p1") := by
  decide

/-- C1 (amended): only the lazy load resets the cache on failure, and only for the
caught exception class. (1) A lazy-load failure caught as `sqlite3.OperationalError`
leaves the cache unloaded (`None`), so no partially merged entries are observable
and a subsequent lookup attempts a fresh load. (2) A lazy-load failure of any other
class escapes the handler and leaves the cache at the partial merge built so far,
marked loaded. (3) A failure during the explicit reload escapes and leaves the
cache unchanged in its previous state (loaded or not). -/
theorem c1_amended :
    (∀ (stores : String → Except SqErr ProfileStore) (ppd : String) (ff : Option String)
       (q p : String), ppd ≠ "" →
       loadLoop stores (pySplitCRLF ppd) [] = .caught p →
       (call stores none ⟨some ppd, ff⟩ q).cache' = none) ∧
    (∀ (stores : String → Except SqErr ProfileStore) (ppd : String) (ff : Option String)
       (q : String) (e : PyError) (sofar : Dict), ppd ≠ "" →
       loadLoop stores (pySplitCRLF ppd) [] = .crash e sofar →
       (call stores none ⟨some ppd, ff⟩ q).cache' = some sofar) ∧
    (∀ (stores : String → Except SqErr ProfileStore) (cache : Option Dict)
       (p : String) (e : PyError), get_bookmarks stores p = .error e →
       reload_cache stores cache p = ⟨.error e, cache⟩) := by
  refine ⟨?_, ?_, ?_⟩
  · intro stores ppd ff q p h hl
    rw [call_lazy stores ppd ff q h, hl]
  · intro stores ppd ff q e sofar h hl
    rw [call_lazy stores ppd ff q h, hl]
  · intro stores cache p e hg
    simp [reload_cache, hg]

/-- C1 witness: the amended statement applied at concrete inputs — a caught lazy-load
failure on config `qq` resets the cache, and a failed reload on `qq` keeps the old
cache `dW1`. -/
theorem c1_witness :
    (call storesW none ⟨some "qq", none⟩ "k").cache' = none ∧
    reload_cache storesW (some dW1) "qq" = ⟨.error (.sqlite .operational), some dW1⟩ :=
  ⟨c1_amended.1 storesW "qq" none "k" "qq" (by decide) (by decide),
   c1_amended.2.2 storesW (some dW1) "qq" (.sqlite .operational) (by decide)⟩

/-- C2: when every configured profile's store loads, a lookup answers from the
merged map: (1) the handler responds with the lookup in the flattened merge;
(2) lookup in the merge is last-profile-wins over the per-profile dicts;
(3) the lookup of `k` finds an entry iff some profile's dict has `k`;
(4) the entry returned is the one from the last profile defining `k`;
(5) each per-profile dict comes from that profile's store via the prefix rule;
(6) a profile's dict has full keyword `k` iff its store contains a keyword record
whose prefixed keyword is `k` and whose place resolves. -/
theorem c2_confirmed (stores : String → Except SqErr ProfileStore) (ppd : String)
    (ff : Option String) (q : String) (ds : List Dict)
    (hne : ppd ≠ "")
    (hread : readAll stores (pySplitCRLF ppd) = some ds) :
    (call stores none ⟨some ppd, ff⟩ q).response = .ok (lookupResponse ds.flatten q) ∧
    (∀ k, dictGet ds.flatten k = lastWins ds k) ∧
    (∀ k, (lastWins ds k).isSome ↔ ∃ d ∈ ds, (dictGet d k).isSome) ∧
    (∀ (k : String) (ds1 : List Dict) (d : Dict) (ds2 : List Dict),
       ds = ds1 ++ d :: ds2 → (dictGet d k).isSome →
       (∀ d' ∈ ds2, dictGet d' k = none) → lastWins ds k = dictGet d k) ∧
    (∀ d ∈ ds, ∃ p ∈ pySplitCRLF ppd, ∃ pfx path store,
       profilePrefixPath p = some (pfx, path) ∧ stores path = .ok store ∧
       d = bookmarksOf store pfx path) ∧
    (∀ (store : ProfileStore) (pfx path k : String),
       (dictGet (bookmarksOf store pfx path) k).isSome ↔
         ∃ kd ∈ store.keywords, pfx ++ kd.keyword = k ∧
           (store.places.find? (fun pl => pl.pid == kd.place_id)).isSome) := by
  refine ⟨?_, ?_, ?_, ?_, ?_, ?_⟩
  · rw [call_lazy stores ppd ff q hne, loadLoop_of_readAll [] hread]
    simp
  · intro k
    exact dictGet_flatten ds k
  · intro k
    exact lastWins_isSome ds k
  · intro k ds1 d ds2 hds h1 h2
    subst hds
    exact lastWins_last ds1 d ds2 k h1 h2
  · intro d hd
    obtain ⟨p, hp, hg⟩ := readAll_mem hread d hd
    obtain ⟨pfx, path, store, h1, h2, h3⟩ := get_bookmarks_ok hg
    exact ⟨p, hp, pfx, path, store, h1, h2, h3⟩
  · intro store pfx path k
    exact dictGet_bookmarksOf_isSome store pfx path k

/-- C2 witness: concrete two-profile configuration where both stores load; the
lookup of `bb` answers from the merge of both profiles. -/
theorem c2_witness :
    ("p1\r\np2" : String) ≠ "" ∧
    readAll storesW (pySplitCRLF "p1\r\np2") = some [dW1, dW2] ∧
    (call storesW none ⟨some "p1\r\np2", none⟩ "bb").response =
      .ok (lookupResponse ([dW1, dW2] : List Dict).flatten "bb") :=
  ⟨by decide, by decide,
   (c2_confirmed storesW "p1\r\np2" none "bb" [dW1, dW2] (by decide) (by decide)).1⟩

/-- C3 counterexample: reload does not rebuild over the whole configured sequence.
With profiles `p1` and `p2` configured and both loaded (entry `bb` from `p2` is
present), a successful reload invoked with the single path `p1` replaces the cache
by `p1`'s entries alone: `bb` is gone, although the configured sequence still
contains `p2`. -/
theorem c3_counterexample :
    (call storesW none ⟨some "p1\r\np2", none⟩ "x").cache' = some (dW1 ++ dW2) ∧
    dictGet (dW1 ++ dW2) "bb" = some (mkBookmarkOpt "bb" "http://2" "p2") ∧
    (reload_cache storesW (some (dW1 ++ dW2)) "p1").outcome = .ok () ∧
    (reload_cache storesW (some (dW1 ++ dW2)) "p1").cache' = some dW1 ∧
    dictGet dW1 "bb" = none := by
  decide

/-- C3 (amended): the reload operation unconditionally rebuilds from the single
profile path it is invoked with (whatever the cache held before, loaded or not),
and on success the result fully replaces (is not merged with) the previous map. -/
theorem c3_amended (stores : String → Except SqErr ProfileStore) (cache : Option Dict)
    (p : String) (d : Dict) (h : get_bookmarks stores p = .ok d) :
    reload_cache stores cache p = ⟨.ok (), some d⟩ := by
  simp [reload_cache, h]

/-- C3 witness: reloading path `p1` over an already loaded cache `dW2` replaces it
entirely with `p1`'s dict. -/
theorem c3_witness : reload_cache storesW (some dW2) "p1" = ⟨.ok (), some dW1⟩ :=
  c3_amended storesW (some dW2) "p1" dW1 (by decide)

/-- C4 counterexample: a keyword record whose keyword value is empty is NOT skipped.
`storeE` has exactly one keyword record, with keyword value `""` and an existing
place; reading it contributes an entry (keyed by the bare prefix), where the claim
requires it to contribute none. -/
theorem c4_counterexample :
    storeE.keywords = [⟨1, "", 5⟩] ∧
    bookmarksOf storeE "" "pe" = [("", mkBookmarkOpt "" "http://u" "pe")] ∧
    bookmarksOf storeE "" "pe" ≠ [] := by
  decide

/-- C4 (amended): while reading one profile's store, exactly the keyword records
whose referenced place record is missing are skipped, without raising; every other
record — including one whose keyword value is empty — contributes exactly one
binding, keyed by `prefix ++ keyword`: the read is `filterMap keywordEntry`, where
`keywordEntry` is `none` precisely on missing-place records and otherwise the
record's single binding. -/
theorem c4_amended (store : ProfileStore) (pfx path : String) :
    bookmarksOf store pfx path =
      store.keywords.filterMap (keywordEntry store.places pfx path) ∧
    (∀ kd : KeywordRow, keywordEntry store.places pfx path kd = none ↔
       store.places.find? (fun pl => pl.pid == kd.place_id) = none) ∧
    (∀ (kd : KeywordRow) (pl : PlaceRow),
       store.places.find? (fun pl => pl.pid == kd.place_id) = some pl →
       keywordEntry store.places pfx path kd =
         some (pfx ++ kd.keyword, mkBookmarkOpt (pfx ++ kd.keyword) pl.url path)) := by
  refine ⟨bookmarksOf_eq_filterMap store pfx path, ?_, ?_⟩
  · intro kd
    simp [keywordEntry, Option.map_eq_none']
  · intro kd pl h
    simp [keywordEntry, h]

/-- C4 witness: the amended statement applied at the concrete store `storeE`, whose
single empty-keyword record with a resolving place contributes its one binding. -/
theorem c4_witness :
    storeE.places.find? (fun pl => pl.pid == (⟨1, "", 5⟩ : KeywordRow).place_id) =
      some ⟨5, "http://u"⟩ ∧
    keywordEntry storeE.places "" "pe" ⟨1, "", 5⟩ =
      some ("" ++ "", mkBookmarkOpt ("" ++ "") "http://u" "pe") :=
  ⟨by decide, (c4_amended storeE "" "pe").2.2 ⟨1, "", 5⟩ ⟨5, "http://u"⟩ (by decide)⟩

/-- C5 counterexample: prefix derivation does not succeed for every string. For the
one-character configured string `a` the claim requires no prefix and path `a`
(and `storesA` would open that path fine), but `profile_path[1]` raises
`IndexError`, so `get_bookmarks` fails before reaching the store. -/
theorem c5_counterexample :
    profilePrefixPath "a" = none ∧
    storesA "a" = .ok storeW1 ∧
    get_bookmarks storesA "a" = .error .indexError := by
  decide

/-- C5 (amended): for every configured string of at least two characters the
derivation succeeds exactly as the spec words it (`claimPfx`/`claimPath`); for a
string of fewer than two characters it raises `IndexError` instead of treating the
whole string as the path. -/
theorem c5_amended :
    (∀ p : String, 2 ≤ p.data.length →
       profilePrefixPath p = some (claimPfx p, claimPath p)) ∧
    (∀ p : String, p.data.length < 2 → profilePrefixPath p = none) := by
  constructor
  · intro p hlen
    match hd : p.data with
    | [] => rw [hd] at hlen; simp at hlen
    | [c] => rw [hd] at hlen; simp at hlen
    | c0 :: c1 :: rest =>
      by_cases hc : c1 = '|'
      · simp [profilePrefixPath, claimPfx, claimPath, hd, hc]
      · simp [profilePrefixPath, claimPfx, claimPath, hd, hc]
  · intro p hlen
    match hd : p.data with
    | [] => simp [profilePrefixPath, hd]
    | [c] => simp [profilePrefixPath, hd]
    | c0 :: c1 :: rest => rw [hd] at hlen; simp at hlen; omega

/-- C5 witness: the amended statement at `A|pp` (prefix `A`, path `pp`) and at the
one-character string `a` (IndexError). -/
theorem c5_witness :
    2 ≤ ("A|pp" : String).data.length ∧
    profilePrefixPath "A|pp" = some (claimPfx "A|pp", claimPath "A|pp") ∧
    ("a" : String).data.length < 2 ∧
    profilePrefixPath "a" = none :=
  ⟨by decide, c5_amended.1 "A|pp" (by decide), by decide, c5_amended.2 "a" (by decide)⟩

/-- C6 counterexample: not every store failure is delivered as a result option.
The store at `pd` fails with a `sqlite3.DatabaseError` that is not an
`OperationalError` (e.g. malformed file); the handler's `except
sqlite3.OperationalError` does not match, so the query handler crashes with the
escaping exception instead of returning a displayable option. -/
theorem c6_counterexample :
    storesW "pd" = .error .database ∧
    (call storesW none ⟨some "pd", none⟩ "k").response = .error (.sqlite .database) := by
  decide

/-- C6 (amended): a store failure raising `sqlite3.OperationalError` during the lazy
load is surfaced as a single displayable result option whose title carries the
failing profile's path, and does not crash the handler; a store failure of any
other database-error class propagates out of the query handler as an exception. -/
theorem c6_amended :
    (∀ (stores : String → Except SqErr ProfileStore) (ppd : String) (ff : Option String)
       (q p : String), ppd ≠ "" →
       loadLoop stores (pySplitCRLF ppd) [] = .caught p →
       (call stores none ⟨some ppd, ff⟩ q).response = .ok [dbErrOpt p] ∧
       (dbErrOpt p).title = "Error: Unable to open profile database file. Profile: " ++ p) ∧
    (∀ (stores : String → Except SqErr ProfileStore) (ppd : String) (ff : Option String)
       (q : String) (e : PyError) (sofar : Dict), ppd ≠ "" →
       loadLoop stores (pySplitCRLF ppd) [] = .crash e sofar →
       (call stores none ⟨some ppd, ff⟩ q).response = .error e) := by
  constructor
  · intro stores ppd ff q p h hl
    rw [call_lazy stores ppd ff q h, hl]
    exact ⟨rfl, rfl⟩
  · intro stores ppd ff q e sofar h hl
    rw [call_lazy stores ppd ff q h, hl]

/-- C6 witness: an `OperationalError` on configured profile `qq` becomes the single
error option naming `qq`. -/
theorem c6_witness :
    (call storesW none ⟨some "qq", none⟩ "k").response = .ok [dbErrOpt "qq"] ∧
    (dbErrOpt "qq").title = "Error: Unable to open profile database file. Profile: " ++ "qq" :=
  c6_amended.1 storesW "qq" none "k" "qq" (by decide) (by decide)

/-- C7: with the cache unloaded, an absent (`SettingNotFound`) or empty configured
profile string makes the handler return the single user-actionable
no-profile-data error option — a normal response, not a crash — performing no load
attempt, and the cache stays unloaded. -/
theorem c7_confirmed (stores : String → Except SqErr ProfileStore) (ff : Option String)
    (q : String) :
    call stores none ⟨none, ff⟩ q = ⟨.ok [noProfileOpt], none, 0⟩ ∧
    call stores none ⟨some "", ff⟩ q = ⟨.ok [noProfileOpt], none, 0⟩ ∧
    noProfileOpt.title = "Error: No profile data path given" := by
  refine ⟨rfl, ?_, rfl⟩
  simp [call]

/-- C8: a lookup on an unloaded cache with a configured profile string performs
exactly one load attempt; a lookup on a loaded cache — including the loaded-but-
empty cache `some []`, distinct from the unloaded `none` — performs zero load
attempts and leaves the cache unchanged. -/
theorem c8_confirmed (stores : String → Except SqErr ProfileStore) (ppd : String)
    (ff : Option String) (q : String) (m : Dict) :
    (ppd ≠ "" → (call stores none ⟨some ppd, ff⟩ q).loadAttempts = 1) ∧
    (call stores (some m) ⟨some ppd, ff⟩ q).loadAttempts = 0 ∧
    (call stores (some m) ⟨some ppd, ff⟩ q).cache' = some m := by
  constructor
  · intro h
    rw [call_lazy stores ppd ff q h]
    cases hl : loadLoop stores (pySplitCRLF ppd) [] <;> rfl
  · by_cases h : ppd = ""
    · subst h
      rw [call_empty_ppd]
      exact ⟨rfl, rfl⟩
    · rw [call_loaded stores m ppd ff q h]
      exact ⟨rfl, rfl⟩

/-- C8 witness: first lookup on unloaded cache loads once; lookup on the
loaded-but-empty cache `some []` loads zero times and keeps `some []`. -/
theorem c8_witness :
    (call storesW none ⟨some "p1", none⟩ "aa").loadAttempts = 1 ∧
    (call storesW (some []) ⟨some "p1", none⟩ "aa").loadAttempts = 0 ∧
    (call storesW (some []) ⟨some "p1", none⟩ "aa").cache' = some [] :=
  ⟨(c8_confirmed storesW "p1" none "aa" []).1 (by decide),
   (c8_confirmed storesW "p1" none "aa" []).2.1,
   (c8_confirmed storesW "p1" none "aa" []).2.2⟩

/-- C9: the lazy load splits the configured string on the CRLF line separator (the
line-ending convention of the plugin's Windows host) into one profile spec per
line, and processes every resulting line, in order: when all reads succeed the new
cache is the in-order concatenation of one dict per line. -/
theorem c9_confirmed (stores : String → Except SqErr ProfileStore) (ppd : String)
    (ff : Option String) (q : String) (ds : List Dict)
    (hne : ppd ≠ "")
    (hread : readAll stores (pySplitCRLF ppd) = some ds) :
    ds.length = (pySplitCRLF ppd).length ∧
    (call stores none ⟨some ppd, ff⟩ q).cache' = some ds.flatten ∧
    (call stores none ⟨some ppd, ff⟩ q).loadAttempts = 1 := by
  refine ⟨readAll_length hread, ?_, ?_⟩
  · rw [call_lazy stores ppd ff q hne, loadLoop_of_readAll [] hread]
    simp
  · rw [call_lazy stores ppd ff q hne, loadLoop_of_readAll [] hread]

/-- C9 witness: config `p1\r\np2` splits into the two lines `p1`, `p2`, read in
order into `dW1` then `dW2`. -/
theorem c9_witness :
    pySplitCRLF "p1\r\np2" = ["p1", "p2"] ∧
    readAll storesW (pySplitCRLF "p1\r\np2") = some [dW1, dW2] ∧
    (call storesW none ⟨some "p1\r\np2", none⟩ "x").cache' =
      some ([dW1, dW2] : List Dict).flatten :=
  ⟨by decide, by decide,
   (c9_confirmed storesW "p1\r\np2" none "x" [dW1, dW2] (by decide) (by decide)).2.1⟩

/-- C10: invariant of every loaded cache. (1) Every dict a store read produces is
`goodDict`: each entry under key `k` is titled exactly `k` and its action opens the
URL shown as its subtitle. (2) `goodDict` is preserved by every step of the query
handler (lazy load, lookup, and the partial merge a crash leaves). (3) It is
preserved by reload. (4) Hence a successful lookup of `q` on a loaded good cache
returns an option titled `q` whose action URL equals its subtitle. -/
theorem c10_confirmed :
    (∀ (store : ProfileStore) (pfx path : String), goodDict (bookmarksOf store pfx path)) ∧
    (∀ (stores : String → Except SqErr ProfileStore) (st : Option Dict) (s : Settings)
       (q : String), (∀ D, st = some D → goodDict D) →
       ∀ D', (call stores st s q).cache' = some D' → goodDict D') ∧
    (∀ (stores : String → Except SqErr ProfileStore) (st : Option Dict) (p : String),
       (∀ D, st = some D → goodDict D) →
       ∀ D', (reload_cache stores st p).cache' = some D' → goodDict D') ∧
    (∀ (stores : String → Except SqErr ProfileStore) (D : Dict) (ppd : String)
       (ff : Option String) (q : String) (o : FlowOption), ppd ≠ "" → goodDict D →
       (call stores (some D) ⟨some ppd, ff⟩ q).response = .ok [o] →
       o.title = q ∧ o.url = some o.sub) := by
  refine ⟨goodDict_bookmarksOf, ?_, ?_, ?_⟩
  · intro stores st s q hst D' hD'
    obtain ⟨ppdOpt, ff⟩ := s
    cases ppdOpt with
    | none =>
      rw [call_none_ppd] at hD'
      exact hst D' hD'
    | some ppd =>
      by_cases h : ppd = ""
      · subst h
        rw [call_empty_ppd] at hD'
        exact hst D' hD'
      · cases st with
        | some m =>
          rw [call_loaded stores m ppd ff q h] at hD'
          injection hD' with hD'
          exact hD' ▸ hst m rfl
        | none =>
          rw [call_lazy stores ppd ff q h] at hD'
          cases hl : loadLoop stores (pySplitCRLF ppd) [] with
          | success d =>
            rw [hl] at hD'
            injection hD' with hD'
            exact hD' ▸ (loadLoop_good (pySplitCRLF ppd) [] goodDict_nil).1 d hl
          | caught p =>
            rw [hl] at hD'
            exact Option.noConfusion hD'
          | crash e sofar =>
            rw [hl] at hD'
            injection hD' with hD'
            exact hD' ▸ (loadLoop_good (pySplitCRLF ppd) [] goodDict_nil).2 e sofar hl
  · intro stores st p hst D' hD'
    cases hg : get_bookmarks stores p with
    | ok d =>
      obtain ⟨pfx, path, store, _, _, rfl⟩ := get_bookmarks_ok hg
      simp only [reload_cache, hg] at hD'
      injection hD' with hD'
      exact hD' ▸ goodDict_bookmarksOf store pfx path
    | error e =>
      simp only [reload_cache, hg] at hD'
      exact hst D' hD'
  · intro stores D ppd ff q o h hgood hresp
    rw [call_loaded stores D ppd ff q h] at hresp
    injection hresp with hresp
    revert hresp
    unfold lookupResponse
    cases hq : dictGet D q with
    | some o' =>
      intro hresp
      injection hresp with h1 _
      exact h1 ▸ hgood q o' hq
    | none =>
      intro hresp
      exact List.noConfusion hresp

/-- C10 witness: on the loaded cache `dW1` (good by part 1 of the theorem), the
successful lookup of `aa` returns an option titled `aa` whose action URL is its
subtitle. -/
theorem c10_witness :
    (mkBookmarkOpt "aa" "http://1" "p1").title = "aa" ∧
    (mkBookmarkOpt "aa" "http://1" "p1").url = some (mkBookmarkOpt "aa" "http://1" "p1").sub :=
  c10_confirmed.2.2.2 storesW dW1 "p1" none "aa" (mkBookmarkOpt "aa" "http://1" "p1")
    (by decide) (c10_confirmed.1 storeW1 "" "p1") (by decide)
